import Mathlib

set_option autoImplicit false

/-!
Shallow embedding, in Lean 4, of the provider abstraction and session
controller of the CLImage command-line tool (Go).  Pure Go functions become
Lean functions over `String`/`List`/`Int`; fallible Go functions return
`Except`; external effects (the OS keyring, the file system, the terminal
form library, the network backend) are passed in explicitly as state or as
scripted outcomes.  Each definition carries a comment naming the Go
function it embeds.
-/

/-! ## Go standard-library primitives used by the embedded code -/

/-- `strings.Split(s, "|")` as used by `IsOfType` and `HuhGroup`
(providers/providers.go): splits on every `'|'`; the result is never the
empty list (splitting the empty string yields `[""]`). -/
def splitCharsOnPipe : List Char → List (List Char)
  | [] => [[]]
  | c :: rest =>
    if c == '|' then [] :: splitCharsOnPipe rest
    else
      match splitCharsOnPipe rest with
      | g :: gs => (c :: g) :: gs
      | [] => [[c]]

/-- `strings.Split(union, "|")` on strings. -/
def goSplitPipe (s : String) : List String :=
  (splitCharsOnPipe s.data).map (fun l => ⟨l⟩)

/-- `strings.CutPrefix(t, "enum:")` succeeded: `t` begins with the five
characters `enum:`. -/
def hasEnumTag (t : String) : Bool :=
  match t.data with
  | 'e' :: 'n' :: 'u' :: 'm' :: ':' :: _ => true
  | _ => false

/-- The remainder `union` returned by `strings.CutPrefix(t, "enum:")`. -/
def enumBody (t : String) : String := ⟨t.data.drop 5⟩

/-- `strconv.Atoi(s)` (= `ParseInt(s, 10, 0)`, 64-bit `int`): an optional
sign followed by one or more ASCII decimal digits, no underscores (the base
is fixed at 10), and the value must fit in `int64`; `none` models a
non-nil `err`. -/
def goAtoi (s : String) : Option Int :=
  let chars := s.data
  let signDigits : Bool × List Char :=
    match chars with
    | '-' :: rest => (true, rest)
    | '+' :: rest => (false, rest)
    | _ => (false, chars)
  let neg := signDigits.1
  let digits := signDigits.2
  if digits.isEmpty then none
  else if digits.all (fun c => c.isDigit) then
    let n : Nat := digits.foldl (fun acc c => acc * 10 + (c.toNat - 48)) 0
    if neg then
      if n ≤ 9223372036854775808 then some (-(n : Int)) else none
    else
      if n < 9223372036854775808 then some (n : Int) else none
  else none

/-! ## Settings schema (providers/providers.go) -/

/-- `ModelSetting` (providers/providers.go lines 175–181).  The Go field
`Type` is rendered `stype` (`Type` is reserved in Lean). -/
structure ModelSetting where
  displayName : String
  name : String
  stype : String
  defaultValue : String
  value : String
deriving DecidableEq

/-- `ModelSettings` — ordered collection of settings (value semantics stand
in for Go's `[]*ModelSetting`; none of the embedded operations relies on
pointer sharing). -/
abbrev ModelSettings := List ModelSetting

/-- `IsOfType(v, t)` (providers/providers.go lines 44–73), translated
switch-case by switch-case.  `parseFloatOk` abstracts the external call
`strconv.ParseFloat(v, 64) == nil`, which the code (and the spec) use
as-is without constraining the float grammar; everything proved below
holds for every such predicate.  The dead `len(unionFields) == 0` branch
and the two identical `slices.Contains` branches of the Go source are kept. -/
def IsOfType (parseFloatOk : String → Bool) (v t : String) : Bool :=
  if t == "int" then (goAtoi v).isSome
  else if t == "float" then parseFloatOk v
  else if t == "string" then true
  else if t == "boolean" then v == "true" || v == "false"
  else if hasEnumTag t then
    let unionFields := goSplitPipe (enumBody t)
    if unionFields.length == 0 then false
    else if unionFields.length ≤ 8 then unionFields.contains v
    else unionFields.contains v
  else false

/-- `IsOfType` as the specification words it (spec §4.1): `"int"` iff the
candidate parses as an integer, `"float"` iff it parses as floating point,
`"string"` always, `"boolean"` only for the literals `"true"`/`"false"`,
`"enum:<a>|<b>|..."` iff the candidate is exactly one of the pipe-separated
variants with an empty variant list always false, anything else false. -/
def specIsOfType (parseFloatOk : String → Bool) (v t : String) : Bool :=
  if t == "int" then (goAtoi v).isSome
  else if t == "float" then parseFloatOk v
  else if t == "string" then true
  else if t == "boolean" then v == "true" || v == "false"
  else if hasEnumTag t then
    let variants := goSplitPipe (enumBody t)
    if variants = [] then false
    else variants.contains v
  else false

/-- `GetModelSettingString(ms, name, defaultValue)`
(providers/providers.go lines 144–153); the `log.Printf` calls are pure
side effects and are dropped. -/
def GetModelSettingString (ms : ModelSettings) (name defaultValue : String) : String :=
  match ms with
  | [] => defaultValue
  | m :: rest =>
    if m.name == name then m.value
    else GetModelSettingString rest name defaultValue

/-- `GetModelSettingBool(ms, name, defaultValue)`
(providers/providers.go lines 154–161). -/
def GetModelSettingBool (ms : ModelSettings) (name : String) (defaultValue : Bool) : Bool :=
  match ms with
  | [] => defaultValue
  | m :: rest =>
    if m.name == name then m.value == "true"
    else GetModelSettingBool rest name defaultValue

/-- `GetModelSettingInt(ms, name, defaultValue)`
(providers/providers.go lines 162–173). -/
def GetModelSettingInt (ms : ModelSettings) (name : String) (defaultValue : Int) : Int :=
  match ms with
  | [] => defaultValue
  | m :: rest =>
    if m.name == name then
      match goAtoi m.value with
      | none => defaultValue
      | some v => v
    else GetModelSettingInt rest name defaultValue

/-! ## Theorems: claims C3, C5, C7 -/

theorem splitCharsOnPipe_cons : ∀ l : List Char, ∃ g gs, splitCharsOnPipe l = g :: gs
  | [] => ⟨[], [], rfl⟩
  | c :: rest => by
    obtain ⟨g, gs, h⟩ := splitCharsOnPipe_cons rest
    by_cases hc : (c == '|') = true
    · exact ⟨[], g :: gs, by simp only [splitCharsOnPipe, h, hc, if_true]⟩
    · exact ⟨c :: g, gs, by simp [splitCharsOnPipe, h, hc]⟩

theorem goSplitPipe_ne_nil (s : String) : goSplitPipe s ≠ [] := by
  obtain ⟨g, gs, h⟩ := splitCharsOnPipe_cons s.data
  unfold goSplitPipe
  rw [h]
  simp

/-- C3: for every candidate string `v` and type string `t` (and every
behaviour of the external float parser), `IsOfType v t` agrees with the
grammar described by the specification: `"int"` iff `v` parses as an
integer, `"float"` iff it parses as floating point, `"string"` always,
`"boolean"` iff `v` is literally `"true"` or `"false"`, `"enum:..."` iff
`v` is one of the pipe-separated variants (the empty-variant-list clause is
vacuous because splitting never produces an empty list), and any other
type string yields `false`. -/
theorem isOfType_eq_spec (parseFloatOk : String → Bool) (v t : String) :
    IsOfType parseFloatOk v t = specIsOfType parseFloatOk v t := by
  unfold IsOfType specIsOfType
  by_cases h1 : (t == "int") = true
  · rw [if_pos h1, if_pos h1]
  rw [if_neg h1, if_neg h1]
  by_cases h2 : (t == "float") = true
  · rw [if_pos h2, if_pos h2]
  rw [if_neg h2, if_neg h2]
  by_cases h3 : (t == "string") = true
  · rw [if_pos h3, if_pos h3]
  rw [if_neg h3, if_neg h3]
  by_cases h4 : (t == "boolean") = true
  · rw [if_pos h4, if_pos h4]
  rw [if_neg h4, if_neg h4]
  by_cases h5 : hasEnumTag t = true
  · rw [if_pos h5, if_pos h5]
    obtain ⟨g, gs, h⟩ := splitCharsOnPipe_cons (enumBody t).data
    have hrw : goSplitPipe (enumBody t) = (⟨g⟩ : String) :: gs.map (fun l => ⟨l⟩) := by
      unfold goSplitPipe; rw [h]; rfl
    rw [hrw]
    simp only [List.length_cons, ite_self]
    have hne : ((⟨g⟩ : String) :: gs.map (fun l => (⟨l⟩ : String))) ≠ [] := by simp
    rw [if_neg hne]
    have hlen : ((gs.map fun l => (⟨l⟩ : String)).length + 1 == 0) = false := by simp
    rw [hlen]
    simp
  rw [if_neg h5, if_neg h5]

/-- A setting whose stored value is neither `"true"` nor `"false"`. -/
def bananaSetting : ModelSetting :=
  { displayName := "Sample", name := "sample", stype := "string",
    defaultValue := "", value := "banana" }

/-- C5 counterexample: the claim says a present setting whose value is
neither `"true"` nor `"false"` yields the supplied default even when that
default is `true`; the code returns `m.Value == "true"`, i.e. `false`, for
the stored value `"banana"` with supplied default `true`. -/
theorem getModelSettingBool_default_refuted :
    GetModelSettingBool [bananaSetting] "sample" true = false := by decide

/-- C5 (amended): `GetBool(name, default)` returns `value == "true"` for
the first matching setting — so a present non-`"true"` value yields
`false` regardless of the supplied default — and returns the supplied
default only when no setting matches. -/
theorem getModelSettingBool_amended (ms : ModelSettings) (name : String) (d : Bool) :
    (ms.find? (fun x => x.name == name) = none → GetModelSettingBool ms name d = d)
    ∧ (∀ m, ms.find? (fun x => x.name == name) = some m →
        GetModelSettingBool ms name d = (m.value == "true")) := by
  induction ms with
  | nil =>
    refine ⟨fun _ => rfl, fun m hm => ?_⟩
    simp [List.find?] at hm
  | cons m rest ih =>
    by_cases h : (m.name == name) = true
    · refine ⟨fun hnone => ?_, fun m' hm' => ?_⟩
      · simp [List.find?, h] at hnone
      · simp [List.find?, h] at hm'
        subst hm'
        simp [GetModelSettingBool, h]
    · have hf : (m.name == name) = false := by simpa using h
      refine ⟨fun hnone => ?_, fun m' hm' => ?_⟩
      · simp only [List.find?, hf] at hnone
        simp only [GetModelSettingBool, hf, if_false]
        exact ih.1 hnone
      · simp only [List.find?, hf] at hm'
        simp only [GetModelSettingBool, hf, if_false]
        exact ih.2 m' hm'

/-- Witness for `getModelSettingBool_amended` at concrete inputs. -/
theorem getModelSettingBool_amended_witness :
    GetModelSettingBool [bananaSetting] "other" true = true
    ∧ GetModelSettingBool [bananaSetting] "sample" true = ("banana" == "true") :=
  ⟨(getModelSettingBool_amended [bananaSetting] "other" true).1 (by decide),
   (getModelSettingBool_amended [bananaSetting] "sample" true).2 bananaSetting (by decide)⟩

/-- C7: `GetString` and `GetInt` with no matching setting return the
supplied default, and `GetInt` on a first-matching setting whose stored
value does not parse as an integer also returns the supplied default.
(Both embeddings are total Lean functions into plain values — no error is
ever surfaced.) -/
theorem getModelSetting_defaults (ms : ModelSettings) (name ds : String) (di : Int) :
    (ms.find? (fun x => x.name == name) = none →
        GetModelSettingString ms name ds = ds ∧ GetModelSettingInt ms name di = di)
    ∧ (∀ m, ms.find? (fun x => x.name == name) = some m → goAtoi m.value = none →
        GetModelSettingInt ms name di = di) := by
  induction ms with
  | nil =>
    refine ⟨fun _ => ⟨rfl, rfl⟩, fun m hm => ?_⟩
    simp [List.find?] at hm
  | cons m rest ih =>
    by_cases h : (m.name == name) = true
    · refine ⟨fun hnone => ?_, fun m' hm' hatoi => ?_⟩
      · simp [List.find?, h] at hnone
      · simp [List.find?, h] at hm'
        subst hm'
        simp [GetModelSettingInt, h, hatoi]
    · have hf : (m.name == name) = false := by simpa using h
      refine ⟨fun hnone => ?_, fun m' hm' hatoi => ?_⟩
      · simp only [List.find?, hf] at hnone
        have := ih.1 hnone
        simp only [GetModelSettingString, GetModelSettingInt, hf, if_false]
        exact this
      · simp only [List.find?, hf] at hm'
        simp only [GetModelSettingInt, hf, if_false]
        exact ih.2 m' hm' hatoi

/-- Witness for `getModelSetting_defaults` at concrete inputs. -/
theorem getModelSetting_defaults_witness :
    (GetModelSettingString [bananaSetting] "other" "dflt" = "dflt"
      ∧ GetModelSettingInt [bananaSetting] "other" 7 = 7)
    ∧ GetModelSettingInt [bananaSetting] "sample" 7 = 7 :=
  ⟨(getModelSetting_defaults [bananaSetting] "other" "dflt" 7).1 (by decide),
   (getModelSetting_defaults [bananaSetting] "sample" "dflt" 7).2 bananaSetting
     (by decide) (by decide)⟩

/-! ## Provider registry (providers/providers.go) -/

/-- `Model` (providers/providers.go lines 36–40). -/
structure Model where
  name : String
  displayName : String
  settings : ModelSettings
deriving DecidableEq

/-- One entry of the process-wide `Providers` registry, carrying the
observable behaviour the claims depend on: `GetName()` (a fixed string in
every implementation), the static `GetModels()` catalog, and the outcome
its `Close()` call returns. -/
structure ProviderModel where
  name : String
  models : List Model
  closeResult : Except String Unit

/-- `GetProviderByName(name)` (providers/providers.go lines 224–231):
first match in registration order, or a not-found error. -/
def GetProviderByName (providers : List ProviderModel) (name : String) :
    Except String ProviderModel :=
  match providers with
  | [] => .error ("provider \"" ++ name ++ "\" not found")
  | p :: rest => if p.name == name then .ok p else GetProviderByName rest name

/-- The error wrapping applied by `Close()`:
`fmt.Errorf("failed to close provider %q: %w", ...)`. -/
def wrapCloseErr (n e : String) : String :=
  "failed to close provider \"" ++ n ++ "\": " ++ e

/-- The loop of `Close()` (providers/providers.go lines 233–244),
instrumented: the first component lists, in order, every provider whose
`Close()` the loop invoked; the second collects the wrapped failure
messages (`errs`), standing for `errors.Join`'s aggregate. -/
def closeTrace (providers : List ProviderModel) : List String × List String :=
  match providers with
  | [] => ([], [])
  | p :: rest =>
    let r := closeTrace rest
    (p.name :: r.1,
      match p.closeResult with
      | .error e => wrapCloseErr p.name e :: r.2
      | .ok _ => r.2)

/-- `Close()`'s return value (providers/providers.go lines 240–243):
the joined aggregate if any close failed, success otherwise. -/
def Close (providers : List ProviderModel) : Except (List String) Unit :=
  if 0 < (closeTrace providers).2.length then .error (closeTrace providers).2
  else .ok ()

/-- C8: `Close` invokes `Close()` on every registered provider in order
(no short-circuit), its aggregate is exactly the wrapped failure of every
provider whose close failed (hence contains each one), it returns that
aggregate as an error whenever some close failed, and returns success when
none did. -/
theorem close_attempts_all_and_aggregates (providers : List ProviderModel) :
    (closeTrace providers).1 = providers.map (fun p => p.name)
    ∧ (closeTrace providers).2 = providers.filterMap (fun p =>
        match p.closeResult with
        | .error e => some (wrapCloseErr p.name e)
        | .ok _ => none)
    ∧ (∀ p ∈ providers, ∀ e, p.closeResult = .error e →
        wrapCloseErr p.name e ∈ (closeTrace providers).2)
    ∧ ((∃ p ∈ providers, ∃ e, p.closeResult = .error e) →
        Close providers = .error (closeTrace providers).2)
    ∧ ((∀ p ∈ providers, p.closeResult = .ok ()) → Close providers = .ok ()) := by
  induction providers with
  | nil =>
    refine ⟨rfl, rfl, by simp, fun h => ?_, fun _ => rfl⟩
    obtain ⟨p, hp, _⟩ := h
    exact absurd hp (List.not_mem_nil p)
  | cons p rest ih =>
    obtain ⟨ih1, ih2, ih3, ih4, ih5⟩ := ih
    refine ⟨?_, ?_, ?_, ?_, ?_⟩
    · simp only [closeTrace, List.map_cons]
      rw [ih1]
    · simp only [closeTrace, List.filterMap_cons]
      cases hc : p.closeResult with
      | error e => simp only [hc, ih2]
      | ok u => cases u; simp only [hc, ih2]
    · intro q hq e he
      rcases List.mem_cons.mp hq with hq | hq
      · subst hq
        simp [closeTrace, he]
      · have := ih3 q hq e he
        simp only [closeTrace]
        cases hc : p.closeResult <;> simp only [hc] <;>
          first
            | exact this
            | exact List.mem_cons_of_mem _ this
    · intro hex
      have hne : (closeTrace (p :: rest)).2 ≠ [] := by
        rcases hex with ⟨q, hq, e, he⟩
        rcases List.mem_cons.mp hq with hq | hq
        · subst hq
          simp [closeTrace, he]
        · have hmem := ih3 q hq e he
          simp only [closeTrace]
          cases hc : p.closeResult <;> simp only [hc] <;> intro hnil
          · simp at hnil
          · rw [hnil] at hmem
            exact absurd hmem (List.not_mem_nil _)
      unfold Close
      rw [if_pos (List.length_pos.mpr hne)]
    · intro hall
      have hp := hall p (List.mem_cons_self p rest)
      have hrest : Close rest = .ok () := ih5 (fun q hq => hall q (List.mem_cons_of_mem p hq))
      have hrest2 : (closeTrace rest).2 = [] := by
        by_contra hne
        unfold Close at hrest
        rw [if_pos (List.length_pos.mpr hne)] at hrest
        exact Except.noConfusion hrest
      unfold Close
      have h2 : (closeTrace (p :: rest)).2 = [] := by
        simp only [closeTrace, hp, hrest2]
      rw [h2]
      rfl

/-- Witness for `close_attempts_all_and_aggregates`: a registry with one
failing and one succeeding provider; both are attempted and the aggregate
reports the failure. -/
theorem close_attempts_all_witness :
    (closeTrace [⟨"a", [], .error "boom"⟩, ⟨"b", [], .ok ()⟩]).1 = ["a", "b"]
    ∧ wrapCloseErr "a" "boom" ∈ (closeTrace [⟨"a", [], .error "boom"⟩, ⟨"b", [], .ok ()⟩]).2
    ∧ Close [⟨"a", [], .error "boom"⟩, ⟨"b", [], .ok ()⟩]
        = .error (closeTrace [⟨"a", [], .error "boom"⟩, ⟨"b", [], .ok ()⟩]).2 := by
  have h := close_attempts_all_and_aggregates
    [⟨"a", [], .error "boom"⟩, ⟨"b", [], .ok ()⟩]
  refine ⟨h.1, ?_, ?_⟩
  · exact h.2.2.1 ⟨"a", [], .error "boom"⟩ (List.mem_cons_self _ _) "boom" rfl
  · exact h.2.2.2.1 ⟨⟨"a", [], .error "boom"⟩, List.mem_cons_self _ _, "boom", rfl⟩

theorem getProviderByName_not_found (providers : List ProviderModel) (name : String)
    (h : ∀ p ∈ providers, p.name ≠ name) :
    GetProviderByName providers name
      = .error ("provider \"" ++ name ++ "\" not found") := by
  induction providers with
  | nil => rfl
  | cons p rest ih =>
    have hp : (p.name == name) = false := by
      simpa using h p (List.mem_cons_self p rest)
    simp only [GetProviderByName, hp, if_false]
    exact ih (fun q hq => h q (List.mem_cons_of_mem p hq))

/-- C9: `GetProviderByName` on a name no registered provider carries fails
with the not-found error (never a nil success: any `ok` result is a
provider from the registry whose name matches); and when several providers
share the requested name, it returns exactly the first of them in
registration order — being a pure function of the registry, the same one
on every call. -/
theorem getProviderByName_spec (providers : List ProviderModel) (name : String) :
    ((∀ p ∈ providers, p.name ≠ name) →
      GetProviderByName providers name
        = .error ("provider \"" ++ name ++ "\" not found"))
    ∧ (∀ p, GetProviderByName providers name = .ok p → p ∈ providers ∧ p.name = name)
    ∧ (∀ pre p rest, providers = pre ++ p :: rest → (∀ q ∈ pre, q.name ≠ name) →
        p.name = name → GetProviderByName providers name = .ok p) := by
  refine ⟨getProviderByName_not_found providers name, ?_, ?_⟩
  · intro p hp
    induction providers with
    | nil => exact Except.noConfusion hp
    | cons q rest ih =>
      by_cases hq : (q.name == name) = true
      · simp only [GetProviderByName, hq, if_true] at hp
        have : q = p := by injection hp
        subst this
        exact ⟨List.mem_cons_self q rest, by simpa using hq⟩
      · simp only [GetProviderByName, hq] at hp
        have := ih hp
        exact ⟨List.mem_cons_of_mem q this.1, this.2⟩
  · intro pre p rest hsplit hpre hname
    subst hsplit
    induction pre with
    | nil =>
      simp only [List.nil_append, GetProviderByName]
      rw [if_pos (by simpa using hname)]
    | cons q qre ih =>
      have hq : (q.name == name) = false := by
        simpa using hpre q (List.mem_cons_self q qre)
      simp only [List.cons_append, GetProviderByName, hq, if_false]
      exact ih (fun r hr => hpre r (List.mem_cons_of_mem q hr))

/-- A sample model for the duplicate-name registry below. -/
def sampleModelM : Model := { name := "m", displayName := "M", settings := [] }

/-- First of two registered providers sharing the name `"x"`. -/
def provX1 : ProviderModel := { name := "x", models := [], closeResult := .ok () }

/-- Second of two registered providers sharing the name `"x"`. -/
def provX2 : ProviderModel :=
  { name := "x", models := [sampleModelM], closeResult := .ok () }

/-- Witness for `getProviderByName_spec`: a registry in which two
providers share the name `"x"`; lookup of `"y"` is a not-found error and
lookup of `"x"` deterministically returns the first of the two. -/
theorem getProviderByName_spec_witness :
    GetProviderByName [provX1, provX2] "y"
      = .error ("provider \"" ++ "y" ++ "\" not found")
    ∧ GetProviderByName [provX1, provX2] "x" = .ok provX1 := by
  have h := getProviderByName_spec [provX1, provX2]
  refine ⟨(h "y").1 ?_, (h "x").2.2 [] provX1 [provX2] rfl ?_ rfl⟩
  · intro p hp
    rcases List.mem_cons.mp hp with hp | hp
    · subst hp; decide
    · rcases List.mem_cons.mp hp with hp | hp
      · subst hp; decide
      · exact absurd hp (List.not_mem_nil p)
  · intro q hq
    exact absurd hq (List.not_mem_nil q)

/-! ## Keyring-backed credentials (providers/google provider) -/

/-- The OS keyring state: entries of (service, user, secret).  The Go code
reaches it through the zalando/go-keyring library. -/
abbrev Keyring := List (String × String × String)

/-- The secret the keyring holds for (service, user), if any. -/
def keyringLookup (kr : Keyring) (service user : String) : Option String :=
  match kr.find? (fun e => e.1 == service && e.2.1 == user) with
  | some e => some e.2.2
  | none => none

/-- `keyring.Delete(service, user)` of the external zalando/go-keyring
library, modelled from its documented behaviour: removes the stored
secret; when no secret is stored for (service, user) it returns
`ErrNotFound` ("secret not found in keyring") — absence is an error, not a
success. -/
def keyringDelete (kr : Keyring) (service user : String) : Except String Keyring :=
  if (keyringLookup kr service user).isSome then
    .ok (kr.filter (fun e => !(e.1 == service && e.2.1 == user)))
  else .error "secret not found in keyring"

/-- `(*GoogleProvider).DeleteCredentials()` (google provider, lines
154–156): forwards `keyring.Delete(keyringServiceName, "google")`
unchanged, with `keyringServiceName = "climage"`. -/
def DeleteCredentials (kr : Keyring) : Except String Keyring :=
  keyringDelete kr "climage" "google"

/-- C6 counterexample: with nothing stored, `DeleteCredentials` returns
the keyring's not-found error instead of the success the claim requires
("already absent" tolerated as success). -/
theorem deleteCredentials_absent_errors :
    DeleteCredentials [] = .error "secret not found in keyring" := by rfl

/-- C6 (amended): `DeleteCredentials` forwards `keyring.Delete` unchanged:
when a secret is stored for ("climage", "google") it removes it and
succeeds; when nothing is stored it returns the keyring's not-found error
(so the operation is not idempotent). -/
theorem deleteCredentials_amended (kr : Keyring) :
    (∀ s, keyringLookup kr "climage" "google" = some s →
      ∃ kr2, DeleteCredentials kr = .ok kr2
        ∧ keyringLookup kr2 "climage" "google" = none)
    ∧ (keyringLookup kr "climage" "google" = none →
        DeleteCredentials kr = .error "secret not found in keyring") := by
  constructor
  · intro s hs
    refine ⟨kr.filter (fun e => !(e.1 == "climage" && e.2.1 == "google")), ?_, ?_⟩
    · unfold DeleteCredentials keyringDelete
      rw [if_pos (by rw [hs]; rfl)]
    · unfold keyringLookup
      have hfind : List.find? (fun e => e.1 == "climage" && e.2.1 == "google")
          (List.filter (fun e => !(e.1 == "climage" && e.2.1 == "google")) kr)
            = none := by
        rw [List.find?_eq_none]
        intro e he habs
        have hf := List.of_mem_filter he
        simp [habs] at hf
      rw [hfind]
  · intro hnone
    unfold DeleteCredentials keyringDelete
    rw [if_neg (by rw [hnone]; simp)]

/-- Witness for `deleteCredentials_amended`: deleting with a stored
secret succeeds and removes it; deleting from an empty keyring errors. -/
theorem deleteCredentials_amended_witness :
    (∃ kr2, DeleteCredentials [("climage", "google", "k")] = .ok kr2
      ∧ keyringLookup kr2 "climage" "google" = none)
    ∧ DeleteCredentials [] = .error "secret not found in keyring" :=
  ⟨(deleteCredentials_amended [("climage", "google", "k")]).1 "k" (by decide),
   (deleteCredentials_amended []).2 (by decide)⟩

/-! ## Config (config package) and the joined model catalog -/

/-- `config.Provider` (config package, lines 47–49). -/
structure ConfigProvider where
  name : String

/-- `config.Config` (config package, lines 41–45): the on-disk record. -/
structure Config where
  providers : List ConfigProvider
  defaultModel : String
  defaultModelSettings : List (String × String)

/-- `(config.Provider).Get()` (config package, lines 51–58): the same
linear registry search as `GetProviderByName`, with the same error text. -/
def ConfigProvider.Get (registry : List ProviderModel) (p : ConfigProvider) :
    Except String ProviderModel :=
  GetProviderByName registry p.name

/-- The loop body of `Config.GetModels()` (config package, lines 152–166),
materialized to the list of yielded pairs: for each config entry in order,
resolve the provider and yield `(providerName + "/" + modelName, model)`
for each of its models; a failing `Get()` executes `return`, ending the
whole enumeration. -/
def getModelsLoop (registry : List ProviderModel) :
    List ConfigProvider → List (String × Model)
  | [] => []
  | p :: rest =>
    match ConfigProvider.Get registry p with
    | .error _ => []
    | .ok pp =>
      pp.models.map (fun m => (pp.name ++ "/" ++ m.name, m))
        ++ getModelsLoop registry rest

/-- `Config.GetModels()` (config package, lines 152–166). -/
def Config.GetModels (registry : List ProviderModel) (cfg : Config) :
    List (String × Model) :=
  getModelsLoop registry cfg.providers

/-- The default-model check at session start (rootCmd, lines 237–259):
keep `cfg.DefaultModel` when the catalog contains its key, otherwise fall
back to the catalog's first entry; fail with "no model is available" when
the resulting model identifier is empty. -/
def initialModel (catalog : List (String × Model)) (defaultModel : String) :
    Except String (String × ModelSettings) :=
  match catalog.find? (fun km => defaultModel == km.1) with
  | some km =>
    if defaultModel == "" then .error "no model is available"
    else .ok (defaultModel, km.2.settings)
  | none =>
    match catalog with
    | [] => .error "no model is available"
    | km :: _ =>
      if km.1 == "" then .error "no model is available"
      else .ok (km.1, km.2.settings)

/-- Every pair yielded by the catalog enumeration has the composite key
`providerName ++ "/" ++ modelName` of its model. -/
theorem getModelsLoop_shape (registry : List ProviderModel) :
    ∀ ps : List ConfigProvider, ∀ km ∈ getModelsLoop registry ps,
      ∃ (pp : ProviderModel) (m : Model), km = (pp.name ++ "/" ++ m.name, m) := by
  intro ps
  induction ps with
  | nil => intro km hkm; exact absurd hkm (List.not_mem_nil km)
  | cons p rest ih =>
    intro km hkm
    rw [getModelsLoop] at hkm
    cases hg : ConfigProvider.Get registry p with
    | error e => rw [hg] at hkm; exact absurd hkm (List.not_mem_nil km)
    | ok pp =>
      rw [hg] at hkm
      rcases List.mem_append.mp hkm with hkm | hkm
      · obtain ⟨m, _, hm⟩ := List.mem_map.mp hkm
        exact ⟨pp, m, hm.symm⟩
      · exact ih km hkm

/-- C10: an unresolvable config entry truncates `Config.GetModels`: the
catalog equals the one computed from the entries before it alone — the bad
entry and every provider listed after it contribute nothing — and when the
bad entry comes first the catalog is empty, so session start fails with
"no model is available". -/
theorem getModels_stops_at_unresolvable (registry : List ProviderModel)
    (pre post : List ConfigProvider) (bad : ConfigProvider) (dm : String)
    (sm : List (String × String))
    (hbad : ∀ pp ∈ registry, pp.name ≠ bad.name) :
    Config.GetModels registry ⟨pre ++ bad :: post, dm, sm⟩
        = Config.GetModels registry ⟨pre, dm, sm⟩
    ∧ (pre = [] →
        initialModel (Config.GetModels registry ⟨pre ++ bad :: post, dm, sm⟩) dm
          = .error "no model is available") := by
  have hget : ConfigProvider.Get registry bad
      = .error ("provider \"" ++ bad.name ++ "\" not found") :=
    getProviderByName_not_found registry bad.name hbad
  have hmain : ∀ pre2 : List ConfigProvider,
      getModelsLoop registry (pre2 ++ bad :: post) = getModelsLoop registry pre2 := by
    intro pre2
    induction pre2 with
    | nil => simp only [List.nil_append, getModelsLoop, hget]
    | cons p rest ih =>
      cases hg : ConfigProvider.Get registry p with
      | error e => simp only [List.cons_append, getModelsLoop, hg]
      | ok pp => simp only [List.cons_append, getModelsLoop, hg, List.append_eq, ih]
  refine ⟨hmain pre, fun hpre => ?_⟩
  subst hpre
  show initialModel (getModelsLoop registry ([] ++ bad :: post)) dm = _
  rw [hmain []]
  rfl

/-- `googleSettings` (google provider file, lines 104–107). -/
def googleSettings : ModelSettings :=
  [{ displayName := "Number of Images", name := "number_of_images", stype := "int",
     defaultValue := "1", value := "" },
   { displayName := "Aspect Ratio", name := "aspect_ratio",
     stype := "enum:1:1|16:9|4:3|9:16|3:4", defaultValue := "1:1", value := "" }]

/-- `GoogleModels` (google provider file, lines 109–113). -/
def GoogleModels : List Model :=
  [{ name := "imagen-4.0-generate-001", displayName := "Imagen 4",
     settings := googleSettings },
   { name := "imagen-4.0-ultra-generate-001", displayName := "Imagen 4 Ultra",
     settings := googleSettings },
   { name := "imagen-4.0-fast-generate-001", displayName := "Imagen 4 Fast",
     settings := googleSettings }]

/-- The registered google provider: `GetName()` returns `"google"`,
`GetModels()` returns `GoogleModels`, and `Close()` (sets the client to
nil) always returns nil. -/
def googleProvider : ProviderModel :=
  { name := "google", models := GoogleModels, closeResult := .ok () }

/-- Witness for `getModels_stops_at_unresolvable`: with only the google
provider registered, a stale `openai` config entry listed first hides
google's models entirely and session start fails. -/
theorem getModels_stops_witness :
    Config.GetModels [googleProvider] ⟨[⟨"openai"⟩, ⟨"google"⟩], "", []⟩
      = Config.GetModels [googleProvider] ⟨[], "", []⟩
    ∧ initialModel
        (Config.GetModels [googleProvider] ⟨[⟨"openai"⟩, ⟨"google"⟩], "", []⟩) ""
      = .error "no model is available" := by
  have hbad : ∀ pp ∈ [googleProvider],
      pp.name ≠ (ConfigProvider.mk "openai").name := by
    intro pp hpp
    rcases List.mem_cons.mp hpp with hp | hp
    · subst hp; decide
    · exact absurd hp (List.not_mem_nil pp)
  have h := getModels_stops_at_unresolvable [googleProvider] [] [⟨"google"⟩]
    ⟨"openai"⟩ "" [] hbad
  exact ⟨h.1, h.2 rfl⟩

/-- The `/models` settings-update loop (rootCmd, lines 287–293): it scans
the catalog for an entry whose model `Name` equals the catalog key — the
range variable `model` shadows the just-selected model identifier — and
takes that entry's settings; when no entry matches, the current settings
stay. -/
def updateModelSettings (catalog : List (String × Model))
    (current : ModelSettings) : ModelSettings :=
  match catalog.find? (fun km => km.2.name == km.1) with
  | some km => km.2.settings
  | none => current

/-- C2 (code behaviour at the bug): over every catalog `Config.GetModels`
can produce, the `/models` settings-update loop is the identity — the
active settings collection is never updated to the selected model's,
because a model's `Name` can never equal its composite
`provider/name` key. -/
theorem updateModelSettings_is_identity (registry : List ProviderModel)
    (cfg : Config) (current : ModelSettings) :
    updateModelSettings (Config.GetModels registry cfg) current = current := by
  unfold updateModelSettings
  have hfind : (Config.GetModels registry cfg).find? (fun km => km.2.name == km.1)
      = none := by
    rw [List.find?_eq_none]
    intro km hkm habs
    obtain ⟨pp, m, hshape⟩ := getModelsLoop_shape registry cfg.providers km hkm
    subst hshape
    have heq : m.name = pp.name ++ "/" ++ m.name := by simpa using habs
    have hd := congrArg String.data heq
    rw [String.data_append, String.data_append] at hd
    have hl := congrArg List.length hd
    simp at hl
    omega
  rw [hfind]

/-! ## GenerateImage (google provider file, lines 183–232) -/

/-- One raw image payload of the backend response `resp.GeneratedImages`. -/
structure GeneratedImage where
  mimeType : String
  imageBytes : List Nat
deriving DecidableEq

/-- The extension switch of the write loop (lines 212–222); `none` is the
default branch, `unsupported image type`. -/
def extForMime (m : String) : Option String :=
  if m == "image/png" then some ".png"
  else if m == "image/jpeg" then some ".jpg"
  else if m == "image/gif" then some ".gif"
  else none

/-- `%x` of the loop index. -/
def goHex (n : Nat) : String := ⟨Nat.toDigits 16 n⟩

/-- `filepath.Join(dir, fmt.Sprintf("%s_%x_%s", nowDateTime, i, ext))`
(line 223). -/
def imageFilePath (dir ts : String) (i : Nat) (ext : String) : String :=
  dir ++ "/" ++ ts ++ "_" ++ goHex i ++ "_" ++ ext

/-- The write loop of `GenerateImage` (lines 210–229): for each response
image in order, an unsupported MIME type or a failed `os.WriteFile` makes
the whole call return an error; otherwise the written path is collected.
`writeErr` is the file system's response to each write (`none` = success). -/
def writeImagesLoop (dir ts : String) (writeErr : String → Option String) :
    Nat → List GeneratedImage → Except String (List String)
  | _, [] => .ok []
  | i, img :: rest =>
    match extForMime img.mimeType with
    | none => .error ("unsupported image type: \"" ++ img.mimeType ++ "\"")
    | some ext =>
      match writeErr (imageFilePath dir ts i ext) with
      | some e => .error ("failed to write image: " ++ e)
      | none =>
        match writeImagesLoop dir ts writeErr (i + 1) rest with
        | .ok paths => .ok (imageFilePath dir ts i ext :: paths)
        | .error e => .error e

/-- `(*GoogleProvider).LoadCredentials()` (lines 146–152). -/
def LoadCredentials (kr : Keyring) : Except String (List (String × String)) :=
  match keyringLookup kr "climage" "google" with
  | some apiKey => .ok [("api_key", apiKey)]
  | none => .error "not logged in to Google"

/-- The environment `GenerateImage` runs against: whether the provider's
client handle is already set, the keyring (for the lazy `LoadCredentials`),
the outcome of `Login`'s client creation, the backend response of
`Models.GenerateImages`, the resolved output directory, the file system's
response to each write, and the formatted timestamp. -/
structure GoogleEnv where
  clientLoggedIn : Bool
  keyringState : Keyring
  loginResult : Except String Unit
  apiResult : Except String (List GeneratedImage)
  outDir : Except String String
  writeErr : String → Option String
  timestamp : String

/-- `(*GoogleProvider).GenerateImage(...)` (lines 183–232): lazy
authentication from stored credentials, the backend call wrapped with the
provider name (`google: ...`), output-directory resolution, then the write
loop; nothing inspects how many images came back. -/
def GenerateImage (env : GoogleEnv) : Except String (List String) :=
  let auth : Except String Unit :=
    if env.clientLoggedIn then .ok ()
    else
      match LoadCredentials env.keyringState with
      | .error e => .error e
      | .ok _ =>
        match env.loginResult with
        | .error e => .error ("failed to login to Google: " ++ e)
        | .ok _ => .ok ()
  match auth with
  | .error e => .error e
  | .ok _ =>
    match env.apiResult with
    | .error e => .error ("google: " ++ e)
    | .ok resp =>
      match env.outDir with
      | .error e => .error ("failed to get out dir: " ++ e)
      | .ok dir => writeImagesLoop dir env.timestamp env.writeErr 0 resp

/-- Environment with an authenticated client whose backend returns zero
images, all writes succeeding. -/
def envZeroImages : GoogleEnv :=
  { clientLoggedIn := true, keyringState := [], loginResult := .ok (),
    apiResult := .ok [], outDir := .ok "/downloads/climage",
    writeErr := fun _ => none, timestamp := "2025-01-01T00:00:00Z" }

/-- Same environment, but the backend returns one image of an unsupported
type followed by one PNG. -/
def envMixedImages : GoogleEnv :=
  { envZeroImages with
      apiResult := .ok [⟨"image/webp", [1]⟩, ⟨"image/png", [2]⟩] }

/-- C4 counterexample: a zero-image outcome is returned as a success with
an empty path list, where the claim requires the call to fail; and a
single unsupported/rejected image aborts the whole call with an error
instead of being skipped while the remaining PNG is kept. -/
theorem generateImage_partial_failure_refuted :
    GenerateImage envZeroImages = .ok []
    ∧ GenerateImage envMixedImages
        = .error ("unsupported image type: \"" ++ "image/webp" ++ "\"") :=
  ⟨rfl, rfl⟩

theorem writeImagesLoop_all_ok (dir ts : String) (we : String → Option String)
    (hwe : ∀ p, we p = none) :
    ∀ (imgs : List GeneratedImage) (i : Nat),
      (∀ img ∈ imgs, (extForMime img.mimeType).isSome) →
      ∃ paths, writeImagesLoop dir ts we i imgs = .ok paths
        ∧ paths.length = imgs.length := by
  intro imgs
  induction imgs with
  | nil => exact fun i _ => ⟨[], rfl, rfl⟩
  | cons img rest ih =>
    intro i hsupp
    obtain ⟨ext, hext⟩ :=
      Option.isSome_iff_exists.mp (hsupp img (List.mem_cons_self img rest))
    obtain ⟨paths, hps, hlen⟩ :=
      ih (i + 1) (fun q hq => hsupp q (List.mem_cons_of_mem img hq))
    refine ⟨imageFilePath dir ts i ext :: paths, ?_, by simp [hlen]⟩
    simp only [writeImagesLoop, hext, hwe, hps]

theorem writeImagesLoop_unsupported (dir ts : String)
    (we : String → Option String) (hwe : ∀ p, we p = none)
    (img : GeneratedImage) (hbad : extForMime img.mimeType = none) :
    ∀ (prev post2 : List GeneratedImage) (i : Nat),
      (∀ q ∈ prev, (extForMime q.mimeType).isSome) →
      writeImagesLoop dir ts we i (prev ++ img :: post2)
        = .error ("unsupported image type: \"" ++ img.mimeType ++ "\"") := by
  intro prev
  induction prev with
  | nil =>
    intro post2 i _
    simp only [List.nil_append, writeImagesLoop, hbad]
  | cons q rest ih =>
    intro post2 i hsupp
    obtain ⟨ext, hext⟩ :=
      Option.isSome_iff_exists.mp (hsupp q (List.mem_cons_self q rest))
    have hrec := ih post2 (i + 1) (fun r hr => hsupp r (List.mem_cons_of_mem q hr))
    simp only [List.cons_append, writeImagesLoop, hext, hwe, List.append_eq, hrec]

/-- C4 (amended): `GenerateImage` processes the response images strictly in
order: an empty response yields success with an empty path list (zero
images is not an error); when every image has a supported MIME type and
every write succeeds the call returns one written path per image; and any
image with an unsupported MIME type makes the whole call return an error —
no path is returned even for images that were writable. -/
theorem generateImage_amended (env : GoogleEnv) (imgs : List GeneratedImage)
    (dir : String)
    (hlogged : env.clientLoggedIn = true)
    (happ : env.apiResult = .ok imgs)
    (hdir : env.outDir = .ok dir) :
    (imgs = [] → GenerateImage env = .ok [])
    ∧ ((∀ img ∈ imgs, (extForMime img.mimeType).isSome)
        ∧ (∀ p, env.writeErr p = none) →
        ∃ paths, GenerateImage env = .ok paths ∧ paths.length = imgs.length)
    ∧ (∀ prev img post2, imgs = prev ++ img :: post2 →
        extForMime img.mimeType = none →
        (∀ q ∈ prev, (extForMime q.mimeType).isSome) →
        (∀ p, env.writeErr p = none) →
        GenerateImage env
          = .error ("unsupported image type: \"" ++ img.mimeType ++ "\"")) := by
  have hgen : GenerateImage env = writeImagesLoop dir env.timestamp env.writeErr 0 imgs := by
    unfold GenerateImage
    simp only [hlogged, if_true, happ, hdir]
  refine ⟨fun hnil => ?_, fun hok => ?_, fun prev img post2 hsplit hbad hsupp hwe => ?_⟩
  · subst hnil; rw [hgen]; rfl
  · obtain ⟨paths, hps, hlen⟩ :=
      writeImagesLoop_all_ok dir env.timestamp env.writeErr hok.2 imgs 0 hok.1
    exact ⟨paths, by rw [hgen]; exact hps, hlen⟩
  · rw [hgen, hsplit]
    exact writeImagesLoop_unsupported dir env.timestamp env.writeErr hwe img hbad
      prev post2 0 hsupp

/-- Environment whose backend returns one PNG image. -/
def envOnePng : GoogleEnv :=
  { envZeroImages with apiResult := .ok [⟨"image/png", [7]⟩] }

/-- Witness for `generateImage_amended` at concrete environments. -/
theorem generateImage_amended_witness :
    (∃ paths, GenerateImage envOnePng = .ok paths ∧ paths.length = 1)
    ∧ GenerateImage envMixedImages
        = .error ("unsupported image type: \"" ++ "image/webp" ++ "\"") := by
  have h1 := generateImage_amended envOnePng [⟨"image/png", [7]⟩]
    "/downloads/climage" rfl rfl rfl
  have h2 := generateImage_amended envMixedImages
    [⟨"image/webp", [1]⟩, ⟨"image/png", [2]⟩] "/downloads/climage" rfl rfl rfl
  constructor
  · refine h1.2.1 ⟨?_, fun p => rfl⟩
    intro img him
    rcases List.mem_cons.mp him with h | h
    · subst h; decide
    · exact absurd h (List.not_mem_nil img)
  · refine h2.2.2 [] ⟨"image/webp", [1]⟩ [⟨"image/png", [2]⟩] rfl rfl ?_ (fun p => rfl)
    intro q hq
    exact absurd hq (List.not_mem_nil q)

/-! ## Session controller (rootCmd, lines 220–366) -/

/-- Go error values as the session loop distinguishes them: the local
`errExit` sentinel, huh's `ErrUserAborted` sentinel, plain errors, and
`fmt.Errorf("...: %w", err)` wrapping. -/
inductive GoErr where
  | errExit : GoErr
  | userAborted : GoErr
  | msg : String → GoErr
  | wrap : String → GoErr → GoErr
deriving DecidableEq

/-- `errors.Is(e, target)`: equality, or a match anywhere down the
unwrap chain. -/
def GoErr.is (e target : GoErr) : Bool :=
  e == target ||
    match e with
    | .wrap _ inner => GoErr.is inner target
    | _ => false

/-- The session variables of `rootCmd.RunE` (lines 232–235). -/
structure SessionState where
  prompt : String
  lastPrompt : String
  model : String
  modelSettings : ModelSettings
deriving DecidableEq

/-- The interactive/external outcomes one iteration of `run` can consume:
the prompt form, the `/models` selector, the `/settings` form (whose edit
produces the new settings), and the provider's `GenerateImage` call. -/
structure RunEnv where
  promptForm : Except GoErr String
  modelForm : Except GoErr String
  settingsForm : Except GoErr ModelSettings
  generate : Except GoErr (List String)

/-- `strings.SplitN(model, "/", 2)` (line 312), restricted to what the
code consumes: the two parts when `model` contains a `'/'`; `none` when it
does not (then `len(modelParts) != 2`). -/
def splitN2Slash : List Char → Option (List Char × List Char)
  | [] => none
  | c :: rest =>
    if c == '/' then some ([], rest)
    else
      match splitN2Slash rest with
      | some ab => some (c :: ab.1, ab.2)
      | none => none

/-- The provider/model split of the composite model identifier. -/
def splitModelId (model : String) : Option (String × String) :=
  match splitN2Slash model.data with
  | some ab => some (⟨ab.1⟩, ⟨ab.2⟩)
  | none => none

/-- `strings.HasPrefix(prompt, "/")` (line 308). -/
def startsWithSlash (p : String) : Bool :=
  match p.data with
  | c :: _ => c == '/'
  | [] => false

/-- One invocation of `run` (rootCmd, lines 261–348): run the prompt form,
dispatch on the entered line (`/models`, `/settings`, `/exit`, `/retry`
falling through to the default branch), and in the default branch either
report an invalid slash command (returning nil) or resolve the provider
from the composite model identifier and generate.  Errors are wrapped with
the same `fmt.Errorf` contexts the source uses; `errExit` is returned for
`/exit`.  Printing, logging and `viu` rendering are side effects and are
dropped. -/
def runOnce (registry : List ProviderModel) (catalog : List (String × Model))
    (env : RunEnv) (st : SessionState) : Except GoErr SessionState :=
  match env.promptForm with
  | .error e => .error (.wrap "failed to run prompt form: " e)
  | .ok p =>
    let st1 : SessionState := { st with prompt := p }
    if st1.prompt == "/models" then
      match env.modelForm with
      | .error e => .error (.wrap "failed to run model form: " e)
      | .ok sel =>
        let st2 : SessionState := { st1 with model := sel }
        .ok { st2 with modelSettings := updateModelSettings catalog st2.modelSettings }
    else if st1.prompt == "/settings" then
      match env.settingsForm with
      | .error e => .error (.wrap "failed to run settings form: " e)
      | .ok newSettings => .ok { st1 with modelSettings := newSettings }
    else if st1.prompt == "/exit" then
      .error .errExit
    else
      let st2 : SessionState :=
        if st1.prompt == "/retry" then { st1 with prompt := st1.lastPrompt } else st1
      if startsWithSlash st2.prompt then
        .ok st2
      else
        match splitModelId st2.model with
        | none => .error (.msg ("invalid model: \"" ++ st2.model ++ "\""))
        | some pn =>
          match GetProviderByName registry pn.1 with
          | .error e => .error (.wrap "failed to get provider: " (.msg e))
          | .ok _pp =>
            match env.generate with
            | .error e => .error (.wrap "failed to generate image: " e)
            | .ok _out => .ok { st2 with lastPrompt := st2.prompt }

/-- What becomes of the session loop. -/
inductive SessionOutcome where
  | finished : SessionOutcome
  | failed : GoErr → SessionOutcome
  | awaiting : SessionState → SessionOutcome
deriving DecidableEq

/-- The `for` loop of `rootCmd.RunE` (lines 350–362), driven by a script
of iteration environments: an error from `run` breaks the loop cleanly
when it `errors.Is` `errExit` or `huh.ErrUserAborted`, and otherwise is
returned — ending the session with that error; after a successful
iteration the prompt resets to `""` and the loop continues.  An exhausted
script means the loop is still awaiting another prompt. -/
def sessionLoop (registry : List ProviderModel) (catalog : List (String × Model)) :
    List RunEnv → SessionState → SessionOutcome
  | [], st => .awaiting st
  | env :: rest, st =>
    match runOnce registry catalog env st with
    | .ok st2 => sessionLoop registry catalog rest { st2 with prompt := "" }
    | .error e =>
      if e.is .errExit || e.is .userAborted then .finished
      else .failed e

/-- A session state on google's first model, as session start produces it. -/
def stEx : SessionState :=
  { prompt := "", lastPrompt := "",
    model := "google/imagen-4.0-generate-001", modelSettings := googleSettings }

/-- One scripted iteration: the user enters a prompt and the provider's
`GenerateImage` fails with a backend error (already wrapped with the
provider name by `GenerateImage` itself). -/
def envGenFail : RunEnv :=
  { promptForm := .ok "a red fox", modelForm := .ok "", settingsForm := .ok [],
    generate := .error (.msg "google: backend unavailable") }

/-- A following scripted iteration that would succeed. -/
def envGoodGen : RunEnv :=
  { promptForm := .ok "another prompt", modelForm := .ok "", settingsForm := .ok [],
    generate := .ok ["/downloads/climage/a.png"] }

/-- C1 counterexample: with a backend error on the first generation and a
second prompt scripted, the session ends with the wrapped error
(`.failed`, the loop's `return err` path) — it does not continue to await
the second prompt. -/
theorem session_continues_after_gen_error_refuted :
    sessionLoop [googleProvider] [] [envGenFail, envGoodGen] stEx
      = .failed (.wrap "failed to generate image: "
          (.msg "google: backend unavailable")) := rfl

theorem not_slash_beq_false (p q : String) (hq : startsWithSlash q = true)
    (hp : startsWithSlash p = false) : (p == q) = false := by
  by_cases h : p = q
  · subst h; rw [hp] at hq; exact Bool.noConfusion hq
  · exact beq_eq_false_iff_ne.mpr h

/-- C1 (amended): when the prompt is a non-slash text, the provider
resolves, and `GenerateImage` returns an error that is neither `errExit`
nor a user abort, the session loop returns
`failed to generate image: <err>` — the session terminates instead of
continuing for another prompt (the provider-name context was already added
inside `GenerateImage`); only `/exit` and user aborts end the loop
cleanly. -/
theorem session_gen_error_terminates (registry : List ProviderModel)
    (catalog : List (String × Model)) (env : RunEnv) (envs : List RunEnv)
    (st : SessionState) (p : String) (e : GoErr) (pn : String × String)
    (hp : env.promptForm = .ok p)
    (hslash : startsWithSlash p = false)
    (hmodel : splitModelId st.model = some pn)
    (hprov : ∃ pp, GetProviderByName registry pn.1 = .ok pp)
    (hgen : env.generate = .error e)
    (hexit : e.is .errExit = false)
    (habort : e.is .userAborted = false) :
    sessionLoop registry catalog (env :: envs) st
      = .failed (.wrap "failed to generate image: " e) := by
  obtain ⟨pp, hpp⟩ := hprov
  have h1 : (p == "/models") = false := not_slash_beq_false p "/models" rfl hslash
  have h2 : (p == "/settings") = false := not_slash_beq_false p "/settings" rfl hslash
  have h3 : (p == "/exit") = false := not_slash_beq_false p "/exit" rfl hslash
  have h4 : (p == "/retry") = false := not_slash_beq_false p "/retry" rfl hslash
  have hrun : runOnce registry catalog env st
      = .error (.wrap "failed to generate image: " e) := by
    simp [runOnce, hp, h1, h2, h3, h4, hslash, hmodel, hpp, hgen]
  unfold sessionLoop
  rw [hrun]
  dsimp only
  have hw1 : (GoErr.wrap "failed to generate image: " e).is .errExit = false := by
    show (((GoErr.wrap "failed to generate image: " e) == GoErr.errExit)
      || GoErr.is e GoErr.errExit) = false
    rw [hexit]
    rfl
  have hw2 : (GoErr.wrap "failed to generate image: " e).is .userAborted = false := by
    show (((GoErr.wrap "failed to generate image: " e) == GoErr.userAborted)
      || GoErr.is e GoErr.userAborted) = false
    rw [habort]
    rfl
  rw [hw1, hw2]
  rfl

/-- Witness for `session_gen_error_terminates` at a concrete session. -/
theorem session_gen_error_terminates_witness :
    sessionLoop [googleProvider] [] [envGenFail] stEx
      = .failed (.wrap "failed to generate image: "
          (.msg "google: backend unavailable")) :=
  session_gen_error_terminates [googleProvider] [] envGenFail [] stEx "a red fox"
    (.msg "google: backend unavailable") ("google", "imagen-4.0-generate-001")
    rfl rfl rfl ⟨googleProvider, rfl⟩ rfl rfl rfl
